import Mathlib

/-!
Shallow embedding of the `projectlint` static project linter
(package `projectlint/`: `common.py`, `__main__.py`, `rules/github.py`,
`rules/php.py`, `rules/js.py`, `rules/docker.py`).

Conventions of the embedding:
* Python exceptions are modelled with `Except PyErr`.
* Python strings are Lean `String`; the string operations the source uses
  (`split`, `strip`, `startswith`, `in`, indexing) are re-implemented below
  by structural recursion over the character list so that every definition
  evaluates inside the kernel.
* YAML / JSON documents (as produced by `yaml.safe_load` / `json.load`)
  are the inductive `Yaml`; dictionary keys can be strings or booleans
  (the GitHub-workflow `on:` key parses as the boolean `true`).
* The filesystem seen by the runner is the structure `FS`: a project root
  (as a list of path segments) together with the regular files below it,
  each file carrying its relative path, its physical lines and, when it
  parses, its parsed YAML/JSON document.  File reading and parsing are
  abstracted into these fields; everything done with the contents is
  translated from the source.
-/

/-- Python exception kinds raised by the translated code. -/
inductive PyErr where
  | typeError
  | indexError
  | valueError
  | attributeError
  | keyError
  | fileNotFoundError
deriving DecidableEq, Repr

/-- Severity of a finding: classes `ProjectInfo` / `ProjectWarning` /
`ProjectError` in `common.py`. -/
inductive Severity where
  | info
  | warning
  | error
deriving DecidableEq, Repr

/-- A finding (`ProjectInfo` and subclasses): message, optional file,
optional position.  Positions produced by the rules are always strings,
so the `(line, col)` variant of the source type is not needed. -/
structure Finding where
  sev : Severity
  message : String
  file : Option String
  position : Option String
deriving DecidableEq, Repr

/-- Construction of an Info finding. -/
def mkInfo (message : String) (file : Option String) (position : Option String) : Finding :=
  ⟨Severity.info, message, file, position⟩

/-- Construction of a Warning finding. -/
def mkWarning (message : String) (file : Option String) (position : Option String) : Finding :=
  ⟨Severity.warning, message, file, position⟩

/-- Construction of an Error finding. -/
def mkError (message : String) (file : Option String) (position : Option String) : Finding :=
  ⟨Severity.error, message, file, position⟩

/-! ## Python string operations, kernel-computable -/

/-- Does `p` occur as a leading segment of `cs`? -/
def isPrefixC : List Char → List Char → Bool
  | [], _ => true
  | _ :: _, [] => false
  | p :: ps, c :: cs => p == c && isPrefixC ps cs

/-- Does `pat` occur as a contiguous run inside `cs`?  Python `pat in s`. -/
def isSubC (pat : List Char) : List Char → Bool
  | [] => pat.isEmpty
  | c :: cs => isPrefixC pat (c :: cs) || isSubC pat cs

/-- Python `str.startswith`. -/
def pyStartsWith (s pat : String) : Bool := isPrefixC pat.toList s.toList

/-- Python `str.endswith`. -/
def pyEndsWith (s pat : String) : Bool := isPrefixC pat.toList.reverse s.toList.reverse

/-- Python substring test `pat in s`. -/
def strContains (s pat : String) : Bool := isSubC pat.toList s.toList

/-- Python `ch in s` for a single character. -/
def chContains (s : String) (c : Char) : Bool := s.toList.contains c

/-- Python `str.strip()` with no arguments. -/
def pyTrim (s : String) : String :=
  String.mk (((s.toList.dropWhile Char.isWhitespace).reverse.dropWhile Char.isWhitespace).reverse)

/-- Helper for `pySplitWs`: current partial token is `acc` (reversed). -/
def splitWsC : List Char → List Char → List String
  | [], acc => if acc.isEmpty then [] else [String.mk acc.reverse]
  | c :: cs, acc =>
    if c.isWhitespace then
      if acc.isEmpty then splitWsC cs [] else String.mk acc.reverse :: splitWsC cs []
    else splitWsC cs (c :: acc)

/-- Python `str.split()` with no separator: split on whitespace runs,
dropping empty pieces. -/
def pySplitWs (s : String) : List String := splitWsC s.toList []

/-- Fuelled worker for `pySplitOn`; `acc` is the current piece
(reversed).  The fuel is an upper bound on the recursion depth, chosen
large enough in `pySplitOn` that it never runs out; it only makes the
recursion structural so that the kernel can evaluate it. -/
def splitOnF (sep : List Char) : Nat → List Char → List Char → List String
  | 0, cs, acc => [String.mk (acc.reverse ++ cs)]
  | _ + 1, [], acc => [String.mk acc.reverse]
  | fuel + 1, c :: cs, acc =>
    if isPrefixC sep (c :: cs) then
      String.mk acc.reverse :: splitOnF sep fuel (List.drop (sep.length - 1) cs) []
    else
      splitOnF sep fuel cs (c :: acc)

/-- Python `str.split(sep)` for a nonempty separator `sep`. -/
def pySplitOn (s sep : String) : List String :=
  splitOnF sep.toList s.toList.length s.toList []

/-- Python `repr` of a list of strings, as interpolated by f-strings,
for example `['3.12']`. -/
def pyListRepr (xs : List String) : String :=
  "[" ++ String.intercalate ", " (xs.map (fun s => "\x27" ++ s ++ "\x27")) ++ "]"

/-! ## Parsed YAML / JSON documents -/

/-- Key of a YAML/JSON mapping: `yaml.safe_load` yields string keys for
ordinary keys and the boolean `True` for the bare workflow key `on`. -/
inductive YKey where
  | strK (s : String)
  | boolK (b : Bool)
deriving DecidableEq, Repr

/-- Parsed YAML/JSON value. -/
inductive Yaml where
  | nullV
  | boolV (b : Bool)
  | strV (s : String)
  | listV (xs : List Yaml)
  | mapV (kvs : List (YKey × Yaml))

/-- Python `==` on document values, restricted to the comparisons the
rules actually perform: in every comparison in the source one operand is
a scalar (a string literal or a mapping key), so structural equality of
two lists or two mappings never arises; comparing a container with a
scalar is `False` in Python, as here. -/
def yamlBEq : Yaml → Yaml → Bool
  | Yaml.nullV, Yaml.nullV => true
  | Yaml.boolV a, Yaml.boolV b => a == b
  | Yaml.strV a, Yaml.strV b => a == b
  | _, _ => false

/-- Python truthiness of a parsed document value. -/
def yFalsy : Yaml → Bool
  | Yaml.nullV => true
  | Yaml.boolV b => !b
  | Yaml.strV s => s == ""
  | Yaml.listV xs => xs.isEmpty
  | Yaml.mapV kvs => kvs.isEmpty

/-- The document value a mapping key denotes when iterated or compared
(Python dict keys are ordinary values). -/
def yamlOfKey : YKey → Yaml
  | YKey.strK s => Yaml.strV s
  | YKey.boolK b => Yaml.boolV b

/-- Python `str(key)` for mapping keys interpolated into f-strings. -/
def keyStr : YKey → String
  | YKey.strK s => s
  | YKey.boolK true => "True"
  | YKey.boolK false => "False"

/-- First element satisfying a predicate (Python `dict` lookup order). -/
def lookupBy {α : Type} (pred : α → Bool) : List α → Option α
  | [] => none
  | x :: xs => if pred x then some x else lookupBy pred xs

/-- Python `d.get(k)`: `None` when absent; `AttributeError` when the
receiver is not a dictionary. -/
def pyDictGet (d : Yaml) (k : YKey) : Except PyErr (Option Yaml) :=
  match d with
  | Yaml.mapV kvs => Except.ok ((lookupBy (fun kv => kv.1 == k) kvs).map (fun kv => kv.2))
  | _ => Except.error PyErr.attributeError

/-- Python `d.get(k, dflt)`. -/
def pyGetD (d : Yaml) (k : YKey) (dflt : Yaml) : Except PyErr Yaml :=
  (pyDictGet d k).map (fun o => o.getD dflt)

/-- Python `d.items()` on a parsed mapping. -/
def pyItems (d : Yaml) : Except PyErr (List (YKey × Yaml)) :=
  match d with
  | Yaml.mapV kvs => Except.ok kvs
  | _ => Except.error PyErr.attributeError

/-- Python `for x in c`: keys of a mapping, elements of a list, single
characters of a string; iteration over other values raises `TypeError`. -/
def pyIterElems (c : Yaml) : Except PyErr (List Yaml) :=
  match c with
  | Yaml.mapV kvs => Except.ok (kvs.map (fun kv => yamlOfKey kv.1))
  | Yaml.listV xs => Except.ok xs
  | Yaml.strV s => Except.ok (s.toList.map (fun ch => Yaml.strV (String.mk [ch])))
  | _ => Except.error PyErr.typeError

/-- Python `x in c`: key membership for mappings, element membership for
lists, substring test for strings (where `x` must itself be a string),
`TypeError` otherwise. -/
def pyIn (x : Yaml) (c : Yaml) : Except PyErr Bool :=
  match c with
  | Yaml.mapV kvs => Except.ok (kvs.any (fun kv => yamlBEq (yamlOfKey kv.1) x))
  | Yaml.listV xs => Except.ok (xs.any (fun y => yamlBEq y x))
  | Yaml.strV s =>
    match x with
    | Yaml.strV pat => Except.ok (strContains s pat)
    | _ => Except.error PyErr.typeError
  | _ => Except.error PyErr.typeError

/-- Python `c[x]` for a document value `c` and key `x`: mapping lookup
(`KeyError` when absent); subscription of other container shapes by a
non-integer key raises `TypeError`. -/
def pySubscript (c : Yaml) (x : Yaml) : Except PyErr Yaml :=
  match c with
  | Yaml.mapV kvs =>
    match lookupBy (fun kv => yamlBEq (yamlOfKey kv.1) x) kvs with
    | some kv => Except.ok kv.2
    | none => Except.error PyErr.keyError
  | _ => Except.error PyErr.typeError

/-- Python list indexing `xs[n]` (nonnegative index). -/
def pyListIdx (xs : List String) (n : Nat) : Except PyErr String :=
  match xs.get? n with
  | some x => Except.ok x
  | none => Except.error PyErr.indexError

/-! ## rules/docker.py — DockerBaseImages -/

/-- The class attribute `DockerBaseImages.EXPECTED_IMAGES`. -/
def EXPECTED_IMAGES : List (String × List String) :=
  [("python", ["3.12"]), ("debian", ["bookworm", "stable"]), ("ubuntu", ["24.04", "noble"])]

/-- Lookup in `EXPECTED_IMAGES` (Python `pkg in dict` / `dict[pkg]`). -/
def expectedImagesGet (pkg : String) : Option (List String) :=
  (lookupBy (fun kv => kv.1 == pkg) EXPECTED_IMAGES).map (fun kv => kv.2)

/-- Worker of `DockerBaseImages.check_file`, line by line.  `file` is the
rendered path used in the findings, `tags` the `internal_tags` list
accumulated so far.  Translated from `rules/docker.py` lines 16-42; the
lines are those of `file.open().readlines()` (trailing newlines kept). -/
def dockerCheckLines (file : String) : List String → List String → Except PyErr (List Finding)
  | [], _ => Except.ok []
  | l :: rest, tags =>
    if pyStartsWith l "FROM " then do
      let image ← pyListIdx (pySplitWs l) 1
      let tags' ←
        if strContains l "AS" then do
          let t ← pyListIdx (pySplitOn l " ") 3
          Except.ok (tags ++ [pyTrim t])
        else Except.ok tags
      if !(chContains image ':') then
        if tags'.contains image then
          dockerCheckLines file rest tags'
        else do
          let r ← dockerCheckLines file rest tags'
          Except.ok (mkError ("Image should have a tag, is " ++ image ++ " (" ++ pyListRepr tags' ++ ")")
            (some file) none :: r)
      else
        match pySplitOn image ":" with
        | [pkg, ver] => do
          let r ← dockerCheckLines file rest tags'
          Except.ok
            ((match expectedImagesGet pkg with
              | some allowed =>
                if allowed.any (fun v => pyStartsWith ver v) then []
                else [mkError (pkg ++ " should be " ++ pyListRepr allowed ++ ", is " ++ ver)
                  (some file) none]
              | none => []) ++ r)
        | _ => Except.error PyErr.valueError
    else dockerCheckLines file rest tags

/-- `DockerBaseImages.check_file`, starting with an empty stage list. -/
def dockerCheckFile (file : String) (lines : List String) : Except PyErr (List Finding) :=
  dockerCheckLines file lines []

/-- Structured view of one line of a container build file, used to state
the base-image policy: either a non-`FROM` line, or a `FROM` line with
its image reference, its optional `AS <name>` stage name, and, when the
reference carries a tag, the `name:tag` split. -/
inductive DLine where
  | other
  | fromL (img : String) (stage : Option String) (tagged : Option (String × String))

/-- The string accessors `DockerBaseImages.check_file` applies to a line,
pinned to the values the structured view declares.  A raw line is related
to a view exactly when every string operation the source performs on it
produces the corresponding component of the view. -/
def lineRel (l : String) : DLine → Prop
  | DLine.other => pyStartsWith l "FROM " = false
  | DLine.fromL img stage tagged =>
    pyStartsWith l "FROM " = true ∧
    (pySplitWs l).get? 1 = some img ∧
    strContains l "AS" = stage.isSome ∧
    (match stage with
     | none => True
     | some n => ∃ t, (pySplitOn l " ").get? 3 = some t ∧ pyTrim t = n) ∧
    (match tagged with
     | none => chContains img ':' = false
     | some pv => chContains img ':' = true ∧ pySplitOn img ":" = [pv.1, pv.2])

/-- Stage names contributed by one viewed line. -/
def dStageOf : DLine → List String
  | DLine.fromL _ (some n) _ => [n]
  | _ => []

/-- Findings of the container base-image policy over viewed lines, with
the stage name of the current line recorded before its own image
reference is checked (this is what the source does: `internal_tags` is
appended to before the tag test). -/
def specDockerFindings (file : String) : List DLine → List String → List Finding
  | [], _ => []
  | DLine.other :: rest, tags => specDockerFindings file rest tags
  | DLine.fromL img stage tagged :: rest, tags =>
    let tags' := tags ++ dStageOf (DLine.fromL img stage tagged)
    (match tagged with
     | none =>
       if tags'.contains img then []
       else [mkError ("Image should have a tag, is " ++ img ++ " (" ++ pyListRepr tags' ++ ")")
         (some file) none]
     | some (pkg, ver) =>
       match expectedImagesGet pkg with
       | some allowed =>
         if allowed.any (fun v => pyStartsWith ver v) then []
         else [mkError (pkg ++ " should be " ++ pyListRepr allowed ++ ", is " ++ ver)
           (some file) none]
       | none => []) ++ specDockerFindings file rest tags'

/-- Findings of the base-image policy as claim C7 words it: an untagged
image reference is excused only by a stage name introduced on an earlier
`FROM` line, the current line's own stage name being recorded after the
check.  The source does not implement this variant. -/
def specDockerEarlierOnly (file : String) : List DLine → List String → List Finding
  | [], _ => []
  | DLine.other :: rest, tags => specDockerEarlierOnly file rest tags
  | DLine.fromL img stage tagged :: rest, tags =>
    (match tagged with
     | none =>
       if tags.contains img then []
       else [mkError ("Image should have a tag, is " ++ img ++ " (" ++ pyListRepr tags ++ ")")
         (some file) none]
     | some (pkg, ver) =>
       match expectedImagesGet pkg with
       | some allowed =>
         if allowed.any (fun v => pyStartsWith ver v) then []
         else [mkError (pkg ++ " should be " ++ pyListRepr allowed ++ ", is " ++ ver)
           (some file) none]
       | none => []) ++
    specDockerEarlierOnly file rest (tags ++ dStageOf (DLine.fromL img stage tagged))

/-! ## rules/php.py — version tables and PHPComposerLock -/

/-- Module constant `PHP_DEPRECATED` of `rules/php.py`. -/
def PHP_DEPRECATED : List String := ["7", "8.0", "8.1"]

/-- Module constant `PHP_STABLE` of `rules/php.py`. -/
def PHP_STABLE : List String := ["8.2", "8.3"]

/-- Module constant `PHP_UNSTABLE` of `rules/php.py`. -/
def PHP_UNSTABLE : List String := ["8.4"]

/-- The filesystem state `PHPComposerLock` consults: the modification
time of `composer.json` and of `composer.lock` under the project root,
`none` when the file does not exist. -/
structure PhpFS where
  composerJson : Option Int
  composerLock : Option Int
deriving DecidableEq, Repr

/-- Python `path.stat().st_mtime`: raises `FileNotFoundError` when the
file is absent. -/
def statMtime : Option Int → Except PyErr Int
  | some m => Except.ok m
  | none => Except.error PyErr.fileNotFoundError

/-- `PHPComposerLock.active` (`rules/php.py` lines 83-84): tests only
that `composer.lock` exists. -/
def phpComposerLock_active (p : PhpFS) : Bool := p.composerLock.isSome

/-- `PHPComposerLock.check` (`rules/php.py` lines 86-97). -/
def phpComposerLock_check (p : PhpFS) : Except PyErr (List Finding) := do
  let json_modified ← statMtime p.composerJson
  let lock_modified ← statMtime p.composerLock
  Except.ok
    (if json_modified > lock_modified then
      [mkError "composer.lock is out of date" (some "composer.lock") none]
    else [])

/-! ## rules/github.py — workflows, GithubActionsOn, GithubActionsPHPVersions -/

/-- One CI workflow file as the rules see it: its path (class
`GithubWorkflow` in `common.py`) together with the parsed document
`wf.load()` returns.  File reading and YAML parsing are abstracted; the
rules under scrutiny are only exercised on parsed documents. -/
structure Workflow where
  path : String
  data : Yaml

/-- The error message of `GithubActionsOn.check`. -/
def ghOnMessage : String :=
  "If an action is triggered by both push and pull_request, it should have a \x27branches\x27 filter to avoid running twice"

/-- The comprehension `{x.strip(): {} for x in on}` over a parsed list:
every element must be a string (otherwise `.strip()` raises
`AttributeError`). -/
def stripStrElems : List Yaml → Except PyErr (List String)
  | [] => Except.ok []
  | Yaml.strV s :: rest => do
    let r ← stripStrElems rest
    Except.ok (pyTrim s :: r)
  | _ :: _ => Except.error PyErr.attributeError

/-- The overlap test of `GithubActionsOn.check` after normalization
(`rules/github.py` lines 29-36): `"push" in on and "pull_request" in on`,
short-circuiting, then `(not on["push"]) or ("branches" not in on["push"])`. -/
def ghOnOverlap (path : String) (on2 : Yaml) : Except PyErr (List Finding) := do
  let hasPush ← pyIn (Yaml.strV "push") on2
  if !hasPush then Except.ok []
  else do
    let hasPull ← pyIn (Yaml.strV "pull_request") on2
    if !hasPull then Except.ok []
    else do
      let pushV ← pySubscript on2 (Yaml.strV "push")
      let bad ←
        if yFalsy pushV then Except.ok true
        else do
          let hasBr ← pyIn (Yaml.strV "branches") pushV
          Except.ok (!hasBr)
      Except.ok (if bad then [mkError ghOnMessage (some path) none] else [])

/-- `GithubActionsOn.check`, body of the per-workflow loop
(`rules/github.py` lines 16-36): fetch the trigger value under the
boolean key `true`, skip falsy values, normalize a string or list of
event names to a mapping, then run the overlap test. -/
def githubActionsOn_checkWf (wf : Workflow) : Except PyErr (List Finding) := do
  let ov ← pyDictGet wf.data (YKey.boolK true)
  let onRaw := ov.getD Yaml.nullV
  if yFalsy onRaw then Except.ok []
  else do
    let on1 :=
      match onRaw with
      | Yaml.strV s =>
        Yaml.mapV ((pySplitOn s ",").map (fun x => (YKey.strK (pyTrim x), Yaml.mapV [])))
      | v => v
    let on2 ←
      match on1 with
      | Yaml.listV xs => do
        let names ← stripStrElems xs
        Except.ok (Yaml.mapV (names.map (fun nm => (YKey.strK nm, Yaml.mapV []))))
      | v => Except.ok v
    ghOnOverlap wf.path on2

/-- `GithubActionsOn.check` over the workflow list. -/
def githubActionsOn_check : List Workflow → Except PyErr (List Finding)
  | [] => Except.ok []
  | wf :: rest => do
    let f ← githubActionsOn_checkWf wf
    let r ← githubActionsOn_check rest
    Except.ok (f ++ r)

/-- The generator `any(version[0] == "8" for version in versions)` in
`GithubActionsPHPVersions.check`: short-circuiting, indexing each element
(1-character strings compare equal to `"8"` exactly when the character is
`8`). -/
def anyFirst8 : List Yaml → Except PyErr Bool
  | [] => Except.ok false
  | Yaml.strV s :: rest =>
    match s.toList with
    | [] => Except.error PyErr.indexError
    | c :: _ => if c == '8' then Except.ok true else anyFirst8 rest
  | Yaml.listV xs :: rest =>
    match xs with
    | [] => Except.error PyErr.indexError
    | x :: _ => if yamlBEq x (Yaml.strV "8") then Except.ok true else anyFirst8 rest
  | _ :: _ => Except.error PyErr.typeError

/-- Inner loop `for version in versions: if version.startswith(deprecated)`
collecting the matching version strings. -/
def depMatches (d : String) : List Yaml → Except PyErr (List String)
  | [] => Except.ok []
  | Yaml.strV s :: rest => do
    let r ← depMatches d rest
    Except.ok (if pyStartsWith s d then s :: r else r)
  | _ :: _ => Except.error PyErr.attributeError

/-- Outer loop `for deprecated in PHP_DEPRECATED` of the matrix check. -/
def depLoop (wfpath pos : String) (vlist : List Yaml) : List String → Except PyErr (List Finding)
  | [] => Except.ok []
  | d :: ds => do
    let ms ← depMatches d vlist
    let r ← depLoop wfpath pos vlist ds
    Except.ok (ms.map (fun v => mkError ("PHP " ++ v ++ " is deprecated") (some wfpath) (some pos)) ++ r)

/-- The two loops `for stable in PHP_STABLE` / `for unstable in
PHP_UNSTABLE`, which have the same shape: a finding for every listed
version absent from the matrix (membership via Python `in`). -/
def coverageLoop (mkF : String → Finding) (versionsY : Yaml) : List String → Except PyErr (List Finding)
  | [] => Except.ok []
  | s :: ss => do
    let mem ← pyIn (Yaml.strV s) versionsY
    let r ← coverageLoop mkF versionsY ss
    Except.ok ((if mem then [] else [mkF s]) ++ r)

/-- Body of `GithubActionsPHPVersions.check` for one matrix axis whose
key starts with `php` (`rules/github.py` lines 82-112). -/
def phpAxisCheck (wfpath pos : String) (versionsY : Yaml) : Except PyErr (List Finding) := do
  let vlist ← pyIterElems versionsY
  let trigger ← anyFirst8 vlist
  if trigger then do
    let de ← depLoop wfpath pos vlist PHP_DEPRECATED
    let st ← coverageLoop
      (fun s => mkError ("PHP " ++ s ++ " is not tested") (some wfpath) (some pos)) versionsY PHP_STABLE
    let un ← coverageLoop
      (fun u => mkInfo ("PHP " ++ u ++ " is not tested") (some wfpath) (some pos)) versionsY PHP_UNSTABLE
    Except.ok (de ++ st ++ un)
  else Except.ok []

/-- Loop `for key in matrix` of `GithubActionsPHPVersions.check`: every
iterated key is subjected to `.startswith`, so a non-string key raises
`AttributeError`; a `php…` key's value is fetched with `matrix[key]`. -/
def phpKeyIter (wfpath jobName : String) (matrix : Yaml) : List Yaml → Except PyErr (List Finding)
  | [] => Except.ok []
  | Yaml.strV ks :: rest => do
    let here ←
      if pyStartsWith ks "php" then do
        let versionsY ← pySubscript matrix (Yaml.strV ks)
        phpAxisCheck wfpath ("jobs." ++ jobName ++ ".strategy.matrix." ++ ks) versionsY
      else Except.ok []
    let r ← phpKeyIter wfpath jobName matrix rest
    Except.ok (here ++ r)
  | _ :: _ => Except.error PyErr.attributeError

/-- Loop `for name, job in jobs.items()` of
`GithubActionsPHPVersions.check`. -/
def phpJobsLoop (wfpath : String) : List (YKey × Yaml) → Except PyErr (List Finding)
  | [] => Except.ok []
  | (nameK, job) :: rest => do
    let strategy ← pyGetD job (YKey.strK "strategy") (Yaml.mapV [])
    let matrix ← pyGetD strategy (YKey.strK "matrix") (Yaml.mapV [])
    let keys ← pyIterElems matrix
    let here ← phpKeyIter wfpath (keyStr nameK) matrix keys
    let r ← phpJobsLoop wfpath rest
    Except.ok (here ++ r)

/-- `GithubActionsPHPVersions.check`, body of the per-workflow loop. -/
def githubActionsPHPVersions_checkWf (wf : Workflow) : Except PyErr (List Finding) := do
  let jobs ← pyGetD wf.data (YKey.strK "jobs") (Yaml.mapV [])
  let items ← pyItems jobs
  phpJobsLoop wf.path items

/-- `GithubActionsPHPVersions.check` over the workflow list. -/
def githubActionsPHPVersions_check : List Workflow → Except PyErr (List Finding)
  | [] => Except.ok []
  | wf :: rest => do
    let f ← githubActionsPHPVersions_checkWf wf
    let r ← githubActionsPHPVersions_check rest
    Except.ok (f ++ r)

/-- A workflow document with a single job carrying a single matrix axis,
as in claim C2: `jobs.<jobName>.strategy.matrix.<axisKey> = versions`. -/
def mkMatrixWf (jobName axisKey : String) (versions : List String) : Yaml :=
  Yaml.mapV [(YKey.strK "jobs", Yaml.mapV [(YKey.strK jobName, Yaml.mapV
    [(YKey.strK "strategy", Yaml.mapV [(YKey.strK "matrix", Yaml.mapV
      [(YKey.strK axisKey, Yaml.listV (versions.map Yaml.strV))])])])])]

/-- The findings claim C2 (amended) predicts for a PHP version matrix:
one Error per listed version per deprecated prefix it matches, one Error
per stable version missing from the list, one Info per unstable version
missing from the list. -/
def phpCoverageFindings (wfpath jobName axisKey : String) (versions : List String) : List Finding :=
  ((PHP_DEPRECATED.map (fun d => (versions.filter (fun v => pyStartsWith v d)).map
    (fun v => mkError ("PHP " ++ v ++ " is deprecated") (some wfpath)
      (some ("jobs." ++ jobName ++ ".strategy.matrix." ++ axisKey))))).flatten)
  ++ ((PHP_STABLE.filter (fun s => !(versions.any (fun v => v == s)))).map
    (fun s => mkError ("PHP " ++ s ++ " is not tested") (some wfpath)
      (some ("jobs." ++ jobName ++ ".strategy.matrix." ++ axisKey))))
  ++ ((PHP_UNSTABLE.filter (fun u => !(versions.any (fun v => v == u)))).map
    (fun u => mkInfo ("PHP " ++ u ++ " is not tested") (some wfpath)
      (some ("jobs." ++ jobName ++ ".strategy.matrix." ++ axisKey))))

/-! ## Claim-side notions for the trigger-overlap rule (C5) -/

/-- The string-keyed trigger entries of a parsed mapping, in order
(boolean-keyed entries can never compare equal to an event name). -/
def strTriggersOfMap : List (YKey × Yaml) → List (String × Yaml)
  | [] => []
  | (YKey.strK s, v) :: rest => (s, v) :: strTriggersOfMap rest
  | (YKey.boolK _, _) :: rest => strTriggersOfMap rest

/-- A plain list of event names, each stripped, each mapped to an empty
configuration; `none` when some element is not a string. -/
def listStrTriggers : List Yaml → Option (List (String × Yaml))
  | [] => some []
  | Yaml.strV s :: rest => (listStrTriggers rest).map (fun r => (pyTrim s, Yaml.mapV []) :: r)
  | _ :: _ => none

/-- Claim C5's normalized triggers: a falsy trigger value has no
triggers; a comma-separated string or a plain list of names becomes a
mapping from stripped event name to empty configuration; a mapping is
taken as is. -/
def claimNormTriggers (v : Yaml) : Option (List (String × Yaml)) :=
  if yFalsy v then some []
  else
    match v with
    | Yaml.strV s => some ((pySplitOn s ",").map (fun x => (pyTrim x, Yaml.mapV [])))
    | Yaml.listV xs => listStrTriggers xs
    | Yaml.mapV kvs => some (strTriggersOfMap kvs)
    | _ => none

/-- The configuration of the `push` trigger among normalized triggers. -/
def claimPushVal (ts : List (String × Yaml)) : Option Yaml :=
  (lookupBy (fun t => t.1 == "push") ts).map (fun t => t.2)

/-- Does a configuration value, as a mapping, carry the given key? -/
def yHasStrKey (v : Yaml) (k : String) : Bool :=
  match v with
  | Yaml.mapV kvs => kvs.any (fun kv => kv.1 == YKey.strK k)
  | _ => false

/-- Is the value a mapping? -/
def isMapB : Yaml → Bool
  | Yaml.mapV _ => true
  | _ => false

/-- Claim C5's error condition: both `push` and `pull_request` are
triggers, and the push configuration is empty (falsy) or lacks a
`branches` key. -/
def claimOverlapBad (ts : List (String × Yaml)) : Bool :=
  (ts.any (fun t => t.1 == "push")) && (ts.any (fun t => t.1 == "pull_request")) &&
  (match claimPushVal ts with
   | some pv => yFalsy pv || !(yHasStrKey pv "branches")
   | none => false)

/-- Scope hypothesis of claim C5: the push configuration, when present,
is either falsy or itself a mapping (the shape workflow files use). -/
def pushShapeOk (ts : List (String × Yaml)) : Bool :=
  match claimPushVal ts with
  | some pv => yFalsy pv || isMapB pv
  | none => true

/-- The trigger value of a workflow document: the entry under the
boolean key `true`, or null when absent. -/
def onValueOf (kvs : List (YKey × Yaml)) : Yaml :=
  ((lookupBy (fun kv => kv.1 == YKey.boolK true) kvs).map (fun kv => kv.2)).getD Yaml.nullV

/-! ## common.py — file discovery, and the rule registry of __main__.py -/

/-- One regular file of the linted project: its path relative to the
project root (as segments), its physical lines, and the parsed document
when its content parses as YAML/JSON (`none` = malformed). -/
structure FSFile where
  rel : List String
  lines : List String
  doc : Option Yaml

/-- The project filesystem the runner sees: the absolute path of the
project root (as segments) and the regular files below it. -/
structure FS where
  rootParts : List String
  files : List FSFile

/-- The class attribute `Rule.IGNORE_PATHS` of `common.py`. -/
def IGNORE_PATHS : List String :=
  ["node_modules", "vendor", "target", "venv", "__pycache__", ".git", ".hg", ".sl"]

/-- Fuelled glob matcher for one path segment: `*` matches any run of
characters, `?` one character, anything else itself (character classes
are not used by this program's patterns). -/
def globMatchF : Nat → List Char → List Char → Bool
  | 0, ps, cs => ps.isEmpty && cs.isEmpty
  | _ + 1, [], [] => true
  | fuel + 1, '*' :: ps, [] => globMatchF fuel ps []
  | fuel + 1, '*' :: ps, c :: cs =>
    globMatchF fuel ps (c :: cs) || globMatchF fuel ('*' :: ps) cs
  | fuel + 1, '?' :: ps, _ :: cs => globMatchF fuel ps cs
  | fuel + 1, p :: ps, c :: cs => p == c && globMatchF fuel ps cs
  | _ + 1, _ :: _, [] => false
  | _ + 1, [], _ :: _ => false

/-- Glob match of one pattern segment against one path segment. -/
def segMatch (pat seg : String) : Bool :=
  globMatchF (pat.toList.length + seg.toList.length + 1) pat.toList seg.toList

/-- `Path.rglob(pattern)` membership: the pattern (split on `/`) must
match a suffix of the relative path's segments — `rglob(p)` is
`glob("**/" + p)`, so any run of leading directories is allowed. -/
def relMatch (pattern : String) (rel : List String) : Bool :=
  let ps := pySplitOn pattern "/"
  decide (ps.length ≤ rel.length) &&
    ((rel.drop (rel.length - ps.length)).zip ps).all (fun pr => segMatch pr.2 pr.1)

/-- Does any segment of the (full) path occur in `IGNORE_PATHS`?  The
source tests every component of the yielded path, the root's own
segments and the filename included. -/
def hasIgnoredSeg (p : List String) : Bool :=
  p.any (fun seg => IGNORE_PATHS.contains seg)

/-- `Rule.find_files` (`common.py` lines 69-74): the `rglob` matches
under the project root, excluding every path one of whose parts is
ignored.  Paths are returned in full (root segments prepended), as
`rglob` yields them. -/
def find_files (fs : FS) (pattern : String) : List (List String) :=
  ((fs.files.filter (fun f => relMatch pattern f.rel)).map
    (fun f => fs.rootParts ++ f.rel)).filter (fun p => !(hasIgnoredSeg p))

/-- `Rule.github_workflows` (`projectlint.py` lines 59-66, the shape the
overriding rules rely on): the regular files directly under
`.github/workflows` whose name ends in `.yml`. -/
def githubWorkflowPaths (fs : FS) : List (List String) :=
  (fs.files.filter (fun f =>
    match f.rel with
    | [a, b, n] => a == ".github" && b == "workflows" && pyEndsWith n ".yml"
    | _ => false)).map (fun f => fs.rootParts ++ f.rel)

/-- The body of the `active(self, project)` override shared by the rules
of `rules/github.py` (e.g. `GithubActionsOn.active`, lines 11-12):
`len(self.github_workflows(project)) != 0`. -/
def githubActionsOn_activeOverride (fs : FS) : Bool :=
  (githubWorkflowPaths fs).length != 0

/-- The concrete rule classes collected by `get_rules()` in
`__main__.py`: subclasses of `common.Rule` whose module name contains
`"rules"` (this keeps the rule classes and drops `FileRule`, which lives
in `common`). -/
inductive RuleClass where
  | PHPComposerDeps
  | PHPComposerLock
  | GithubActionsOn
  | GithubActionsRunsOn
  | GithubActionsPHPVersions
  | GithubActionsActionVersions
  | GithubActionsVendoredPHPTools
  | JSPackageDeps
  | DockerBaseImages
deriving DecidableEq, Repr

/-- Registration order of `Rule.__subclasses__()` (class creation
order): importing `rules.github` first executes `rules.php` (it imports
the version tables from there), so the two PHP rules are created before
the five GitHub rules; then `rules.js` and `rules.docker` create the two
`FileRule` subclasses. -/
def ruleOrder : List RuleClass :=
  [RuleClass.PHPComposerDeps, RuleClass.PHPComposerLock, RuleClass.GithubActionsOn,
   RuleClass.GithubActionsRunsOn, RuleClass.GithubActionsPHPVersions,
   RuleClass.GithubActionsActionVersions, RuleClass.GithubActionsVendoredPHPTools,
   RuleClass.JSPackageDeps, RuleClass.DockerBaseImages]

/-- The class attribute `RELEVANT_PATTERNS` of each rule: only the two
`FileRule` subclasses declare patterns; the seven old-style rules
inherit the empty default of `common.Rule`. -/
def relevantPatterns : RuleClass → List String
  | RuleClass.JSPackageDeps => ["package.json"]
  | RuleClass.DockerBaseImages => ["Dockerfile"]
  | _ => []

/-- Does the class override `active`/`check` with the old-style
signature `(self, project)`?  True for the rules of `rules/github.py`
and `rules/php.py`; the `FileRule` subclasses inherit the one-parameter
`active(self)` / `check(self)` of `common.py`. -/
def takesProjectArg : RuleClass → Bool
  | RuleClass.JSPackageDeps => false
  | RuleClass.DockerBaseImages => false
  | _ => true

/-- An instantiated rule: its class and the `relevant_paths` computed by
`Rule.__init__` (`common.py` lines 55-60). -/
structure RuleState where
  cls : RuleClass
  relevantPaths : List (List String)

/-- `Rule.__init__`: discover the relevant files of every declared
pattern. -/
def initRule (fs : FS) (c : RuleClass) : RuleState :=
  ⟨c, ((relevantPatterns c).map (fun pat => find_files fs pat)).flatten⟩

/-- The call `rule.active()` of `__main__.py` line 49: the bound method
receives only `self`; when the class declares `active(self, project)`,
the call is missing the required `project` argument and raises
`TypeError`; otherwise `common.Rule.active` returns
`bool(self.relevant_paths)`. -/
def callActive0 (r : RuleState) : Except PyErr Bool :=
  if takesProjectArg r.cls then Except.error PyErr.typeError
  else Except.ok (!r.relevantPaths.isEmpty)

/-- The class attribute `JSPackageDeps.EXPECTED_PACKAGES`. -/
def EXPECTED_PACKAGES : List (String × String) := [("react", "^18"), ("typescript", "^5.4")]

/-- Python `{**a, **b}`: keys of `b` shadow keys of `a` (lookup
semantics; entry order is immaterial to the rule, which only looks
up). -/
def mergeDicts (a b : List (YKey × Yaml)) : List (YKey × Yaml) :=
  (a.filter (fun kv => !(b.any (fun kv2 => kv2.1 == kv.1)))) ++ b

/-- Coerce `d.get(..., {})` results for dictionary unpacking `{**x}`. -/
def asMapKvs : Yaml → Except PyErr (List (YKey × Yaml))
  | Yaml.mapV kvs => Except.ok kvs
  | _ => Except.error PyErr.typeError

/-- Loop of `JSPackageDeps.check_file` over `EXPECTED_PACKAGES`. -/
def jsDepsLoop (file : String) (merged : List (YKey × Yaml)) :
    List (String × String) → Except PyErr (List Finding)
  | [] => Except.ok []
  | (package, expected) :: rest => do
    let here ←
      match lookupBy (fun kv => kv.1 == YKey.strK package) merged with
      | some kv =>
        match kv.2 with
        | Yaml.strV ver =>
          Except.ok (if pyStartsWith ver expected then []
            else [mkWarning (package ++ " should be " ++ expected ++ ", is " ++ ver)
              (some file) none])
        | _ => Except.error PyErr.attributeError
      | none => Except.ok []
    let r ← jsDepsLoop file merged rest
    Except.ok (here ++ r)

/-- `JSPackageDeps.check_file` (`rules/js.py` lines 15-26). -/
def jsCheckFile (file : String) (doc : Option Yaml) : Except PyErr (List Finding) := do
  match doc with
  | none => Except.error PyErr.valueError
  | some d => do
    let depsA ← pyGetD d (YKey.strK "dependencies") (Yaml.mapV [])
    let depsB ← pyGetD d (YKey.strK "devDependencies") (Yaml.mapV [])
    let a ← asMapKvs depsA
    let b ← asMapKvs depsB
    jsDepsLoop file (mergeDicts a b) EXPECTED_PACKAGES

/-- The file stored under a full path, if any. -/
def fileAt (fs : FS) (p : List String) : Option FSFile :=
  lookupBy (fun f => fs.rootParts ++ f.rel == p) fs.files

/-- Rendering of a segment path as printed / passed to `open`. -/
def renderPath (p : List String) : String := String.intercalate "/" p

/-- `FileRule.check` (`common.py` lines 77-80): concatenate
`check_file(path)` over `relevant_paths`, dispatching to the class's
`check_file`. -/
def fileRuleCheckPaths (fs : FS) (c : RuleClass) : List (List String) → Except PyErr (List Finding)
  | [] => Except.ok []
  | p :: rest => do
    let here ←
      match fileAt fs p with
      | none => Except.error PyErr.fileNotFoundError
      | some f =>
        match c with
        | RuleClass.DockerBaseImages => dockerCheckFile (renderPath p) f.lines
        | RuleClass.JSPackageDeps => jsCheckFile (renderPath p) f.doc
        | _ => Except.error PyErr.typeError
    let r ← fileRuleCheckPaths fs c rest
    Except.ok (here ++ r)

/-- The call `rule.check()` of `__main__.py` line 54: old-style rules
declare `check(self, project)` and raise `TypeError` on the
zero-argument call; `FileRule` subclasses run their per-file checks. -/
def callCheck0 (fs : FS) (r : RuleState) : Except PyErr (List Finding) :=
  if takesProjectArg r.cls then Except.error PyErr.typeError
  else fileRuleCheckPaths fs r.cls r.relevantPaths

/-- Python `str(x)` for the optional file/position slots of the printed
line (`None` prints as `None`). -/
def renderOptStr : Option String → String
  | none => "None"
  | some s => s

/-- One printed line of `__main__.py` lines 56-62, together with whether
it sets the `fail` flag. -/
def renderFindingLine (i : Finding) : String × Bool :=
  match i.sev with
  | Severity.error =>
    ("Error: " ++ renderOptStr i.file ++ ":" ++ renderOptStr i.position ++ ": " ++ i.message, true)
  | Severity.warning =>
    ("Warning: " ++ renderOptStr i.file ++ ":" ++ renderOptStr i.position ++ ": " ++ i.message, false)
  | Severity.info =>
    ("Info: " ++ renderOptStr i.file ++ ":" ++ renderOptStr i.position ++ ": " ++ i.message, false)

/-- The `for info in infos` loop of `__main__.py`: the printed lines and
whether some finding was an Error. -/
def processInfos : List Finding → List String × Bool
  | [] => ([], false)
  | i :: rest =>
    let lb := renderFindingLine i
    let lf := processInfos rest
    (lb.1 :: lf.1, lb.2 || lf.2)

/-- The `for rule in rules` loop of `main` (`__main__.py` lines 48-64):
skip inactive rules, drain each active rule's findings, print them,
accumulate the fail flag; an uncaught exception aborts the run with the
output printed so far. -/
def runLoop (fs : FS) : List RuleState → List String → Bool → List String × Except PyErr Nat
  | [], out, fail => (out, Except.ok (if fail then 1 else 0))
  | r :: rest, out, fail =>
    match callActive0 r with
    | Except.error e => (out, Except.error e)
    | Except.ok false => runLoop fs rest out fail
    | Except.ok true =>
      match callCheck0 fs r with
      | Except.error e => (out, Except.error e)
      | Except.ok infos =>
        let pr := processInfos infos
        runLoop fs rest (out ++ pr.1) (fail || pr.2)

/-- `main` of `__main__.py` after argument parsing: instantiate one rule
per registered class against the project, run the loop, return the
printed lines and the exit code (or the uncaught exception). -/
def mainRun (fs : FS) : List String × Except PyErr Nat :=
  runLoop fs (ruleOrder.map (initRule fs)) [] false

/-! ## Supporting lemmas -/

/-- Computation of an `Except` bind on a success. -/
theorem bindOk {α β : Type} (a : α) (f : α → Except PyErr β) :
    (Except.ok a >>= f) = f a := rfl

/-- Computation of an `Except` bind on an exception. -/
theorem bindErr {α β : Type} (e : PyErr) (f : α → Except PyErr β) :
    ((Except.error e : Except PyErr α) >>= f) = Except.error e := rfl

/-- The line-by-line worker refines the structured policy on every file
whose lines are related to views, for every starting stage list. -/
theorem dockerCheckLines_refines (file : String) :
    ∀ {lines : List String} {views : List DLine}, List.Forall₂ lineRel lines views →
    ∀ tags, dockerCheckLines file lines tags = Except.ok (specDockerFindings file views tags) := by
  intro lines views h
  induction h with
  | nil => intro tags; rfl
  | cons hlv htail ih =>
    intro tags
    rename_i l v ls vs
    cases v with
    | other =>
      simp only [lineRel] at hlv
      simp only [dockerCheckLines, hlv, Bool.false_eq_true, if_false, specDockerFindings]
      exact ih tags
    | fromL img stage tagged =>
      obtain ⟨h1, h2, h3, h4, h5⟩ := hlv
      simp only [dockerCheckLines, h1, if_true, pyListIdx, h2]
      cases stage with
      | none =>
        simp only [Option.isSome_none] at h3
        cases tagged with
        | none =>
          simp only [h3, Bool.false_eq_true, if_false, h5, Bool.not_false, if_true,
            bindOk, specDockerFindings, dStageOf, List.append_nil]
          cases hc : List.contains tags img with
          | true => simp [ih tags]
          | false => simp [ih tags, bindOk]
        | some pv =>
          obtain ⟨h5a, h5b⟩ := h5
          simp only [h3, Bool.false_eq_true, if_false, h5a, Bool.not_true, h5b,
            bindOk, ih tags, specDockerFindings, dStageOf, List.append_nil]
      | some n =>
        simp only [Option.isSome_some] at h3
        obtain ⟨t, ht, htr⟩ := h4
        cases tagged with
        | none =>
          simp only [h3, if_true, pyListIdx, ht, bindOk, h5, Bool.not_false, if_true,
            htr, specDockerFindings, dStageOf]
          cases hc : List.contains (tags ++ [n]) img with
          | true => simp [ih (tags ++ [n])]
          | false => simp [ih (tags ++ [n]), bindOk]
        | some pv =>
          obtain ⟨h5a, h5b⟩ := h5
          have ht2 : (pySplitOn l " ")[3]? = some t := by
            rw [← List.get?_eq_getElem?]; exact ht
          simp [h3, pyListIdx, ht2, bindOk, h5a, h5b, htr,
            ih (tags ++ [n]), specDockerFindings, dStageOf]

/-- Boolean equality of characters is symmetric. -/
theorem charBeqComm (a b : Char) : (a == b) = (b == a) := by
  by_cases h : a = b
  · simp [h]
  · simp [beq_eq_false_iff_ne, h, Ne.symm h]

/-- A nonempty string has a nonempty character list. -/
theorem stringNeNil {v : String} (hv : v ≠ "") : v.toList ≠ [] := by
  intro h
  apply hv
  cases v with
  | mk data =>
    simp only [String.toList, String.data] at h
    subst h
    rfl

/-- On a list of nonempty version strings, the short-circuiting
`any(version[0] == "8")` generator computes the `8`-prefix test. -/
theorem anyFirst8_strs (vs : List String) (hne : ∀ v ∈ vs, v ≠ "") :
    anyFirst8 (vs.map Yaml.strV) = Except.ok (vs.any (fun v => pyStartsWith v "8")) := by
  induction vs with
  | nil => rfl
  | cons v rest ih =>
    have hv : v ≠ "" := hne v (by simp)
    cases hd : v.toList with
    | nil => exact absurd hd (stringNeNil hv)
    | cons c cs =>
      have hrest := ih (fun x hx => hne x (by simp [hx]))
      simp only [List.map_cons, anyFirst8, hd, List.any_cons, pyStartsWith,
        show "8".toList = ['8'] from rfl, isPrefixC, Bool.and_true]
      cases hc : c == '8' with
      | true =>
        have h2 : ('8' == c) = true := by rw [charBeqComm]; exact hc
        simp [h2]
      | false =>
        have h2 : ('8' == c) = false := by rw [charBeqComm]; exact hc
        simp [h2, hrest, pyStartsWith, show "8".toList = ['8'] from rfl, String.toList]

/-- On version strings, the inner deprecated-version loop computes a
filter. -/
theorem depMatches_strs (d : String) (vs : List String) :
    depMatches d (vs.map Yaml.strV) = Except.ok (vs.filter (fun v => pyStartsWith v d)) := by
  induction vs with
  | nil => rfl
  | cons v rest ih =>
    simp only [List.map_cons, depMatches, ih, bindOk]
    cases hs : pyStartsWith v d <;> simp [List.filter_cons, hs]

/-- The deprecated-version loops produce one Error per (prefix, matching
version) pair, in order. -/
theorem depLoop_strs (wfpath pos : String) (vs : List String) (ds : List String) :
    depLoop wfpath pos (vs.map Yaml.strV) ds =
      Except.ok ((ds.map (fun d => (vs.filter (fun v => pyStartsWith v d)).map
        (fun v => mkError ("PHP " ++ v ++ " is deprecated") (some wfpath) (some pos)))).flatten) := by
  induction ds with
  | nil => rfl
  | cons d ds ih =>
    simp [depLoop, depMatches_strs, ih, bindOk]

/-- Python membership of a string in a list of strings is list
membership. -/
theorem anyMemBridge (vs : List String) (s : String) :
    ((vs.map Yaml.strV).any (fun y => yamlBEq y (Yaml.strV s))) = vs.any (fun v => v == s) := by
  induction vs with
  | nil => rfl
  | cons v rest ih =>
    have h1 : ((Yaml.strV v :: rest.map Yaml.strV).any (fun y => yamlBEq y (Yaml.strV s)))
        = ((v == s) || (rest.map Yaml.strV).any (fun y => yamlBEq y (Yaml.strV s))) := rfl
    rw [List.map_cons, h1, ih, List.any_cons]

/-- The stable/unstable loops produce one finding per listed version
absent from the matrix. -/
theorem coverageLoop_strs (mkF : String → Finding) (vs : List String) (ss : List String) :
    coverageLoop mkF (Yaml.listV (vs.map Yaml.strV)) ss =
      Except.ok ((ss.filter (fun s => !(vs.any (fun v => v == s)))).map mkF) := by
  induction ss with
  | nil => rfl
  | cons s ss ih =>
    simp only [coverageLoop, pyIn, anyMemBridge, bindOk, ih, List.filter_cons]
    cases hm : vs.any (fun v => v == s) <;> simp [hm]

/-- The full matrix check on a one-job, one-axis workflow document,
characterized over an arbitrary version list. -/
theorem githubActionsPHPVersions_spec (wfpath jobName axisKey : String) (versions : List String)
    (hkey : pyStartsWith axisKey "php" = true)
    (hne : ∀ v ∈ versions, v ≠ "") :
    githubActionsPHPVersions_check [⟨wfpath, mkMatrixWf jobName axisKey versions⟩] =
      Except.ok (if versions.any (fun v => pyStartsWith v "8")
        then phpCoverageFindings wfpath jobName axisKey versions
        else []) := by
  simp only [githubActionsPHPVersions_check, githubActionsPHPVersions_checkWf, mkMatrixWf,
    pyGetD, pyDictGet, pyItems, phpJobsLoop, phpKeyIter, pyIterElems, keyStr, pySubscript,
    yamlOfKey, yamlBEq, lookupBy, bindOk, Except.map, hkey, if_true, beq_self_eq_true,
    List.map_cons, List.map_nil, Option.map_some', Option.getD_some, List.append_nil]
  simp only [phpAxisCheck, pyIterElems, anyFirst8_strs versions hne, bindOk]
  cases htr : versions.any (fun v => pyStartsWith v "8") with
  | false => rfl
  | true =>
    simp only [if_true, depLoop_strs, coverageLoop_strs, bindOk, phpCoverageFindings]

/-- Boolean equality of string keys is string equality. -/
theorem ykeyStrBeq (s nm : String) : (YKey.strK s == YKey.strK nm) = (s == nm) := by
  cases hB : s == nm with
  | true =>
    have h : s = nm := by simpa using hB
    subst h; simp
  | false =>
    have hne : s ≠ nm := by simpa using hB
    simp [beq_eq_false_iff_ne, hne]

/-- `"name" in d` over a parsed mapping equals membership among its
string-keyed entries. -/
theorem anyKeyBridge (K : List (YKey × Yaml)) (nm : String) :
    (K.any (fun kv => yamlBEq (yamlOfKey kv.1) (Yaml.strV nm))) =
      ((strTriggersOfMap K).any (fun t => t.1 == nm)) := by
  induction K with
  | nil => rfl
  | cons kv rest ih =>
    obtain ⟨k, v⟩ := kv
    cases k with
    | strK s =>
      simp only [List.any_cons, strTriggersOfMap]
      rw [show yamlBEq (yamlOfKey (YKey.strK s, v).1) (Yaml.strV nm) = (s == nm) from rfl, ih]
    | boolK b =>
      simp only [List.any_cons, strTriggersOfMap]
      rw [show yamlBEq (yamlOfKey (YKey.boolK b, v).1) (Yaml.strV nm) = false from rfl, ih,
        Bool.false_or]

/-- `d["name"]` over a parsed mapping finds the same value as lookup
among its string-keyed entries. -/
theorem findValBridge (K : List (YKey × Yaml)) (nm : String) :
    ((lookupBy (fun kv => yamlBEq (yamlOfKey kv.1) (Yaml.strV nm)) K).map (fun kv => kv.2)) =
      ((lookupBy (fun t => t.1 == nm) (strTriggersOfMap K)).map (fun t => t.2)) := by
  induction K with
  | nil => rfl
  | cons kv rest ih =>
    obtain ⟨k, v⟩ := kv
    cases k with
    | strK s =>
      simp only [strTriggersOfMap, lookupBy]
      simp only [show yamlBEq (yamlOfKey (YKey.strK s)) (Yaml.strV nm) = (s == nm) from rfl]
      by_cases hs : (s == nm) = true
      · simp [hs]
      · simp [hs, ih]
    | boolK b =>
      simp only [strTriggersOfMap, lookupBy]
      simp only [show yamlBEq (yamlOfKey (YKey.boolK b)) (Yaml.strV nm) = false from rfl]
      simp [ih]

/-- A boolean key never equals a string key. -/
theorem ykeyBoolStrBeq (b : Bool) (nm : String) : (YKey.boolK b == YKey.strK nm) = false := by
  simp [beq_eq_false_iff_ne]

/-- A satisfied `any` yields a successful lookup. -/
theorem lookupBy_isSome {α : Type} (p : α → Bool) (l : List α) (h : l.any p = true) :
    ∃ x, lookupBy p l = some x := by
  induction l with
  | nil => simp at h
  | cons x xs ih =>
    simp only [List.any_cons, Bool.or_eq_true] at h
    by_cases hx : p x = true
    · exact ⟨x, by simp [lookupBy, hx]⟩
    · obtain ⟨y, hy⟩ := ih (h.resolve_left hx)
      exact ⟨y, by simp [lookupBy, hx, hy]⟩

/-- `"name" in d` equals direct key comparison over the entries. -/
theorem anyKeyBridge2 (K : List (YKey × Yaml)) (nm : String) :
    (K.any (fun kv => yamlBEq (yamlOfKey kv.1) (Yaml.strV nm))) =
      (K.any (fun kv => kv.1 == YKey.strK nm)) := by
  induction K with
  | nil => rfl
  | cons kv rest ih =>
    obtain ⟨k, v⟩ := kv
    cases k with
    | strK s =>
      simp only [List.any_cons, ih]
      rw [show yamlBEq (yamlOfKey ((YKey.strK s, v) : YKey × Yaml).1) (Yaml.strV nm) = (s == nm) from rfl,
        show (((YKey.strK s, v) : YKey × Yaml).1 == YKey.strK nm) = (YKey.strK s == YKey.strK nm) from rfl,
        ykeyStrBeq]
    | boolK b =>
      simp only [List.any_cons, ih]
      rw [show yamlBEq (yamlOfKey ((YKey.boolK b, v) : YKey × Yaml).1) (Yaml.strV nm) = false from rfl,
        show (((YKey.boolK b, v) : YKey × Yaml).1 == YKey.strK nm) = (YKey.boolK b == YKey.strK nm) from rfl,
        ykeyBoolStrBeq]

/-- The overlap test on a normalized mapping yields exactly one Error
iff claim C5's condition holds, under the push-shape scope hypothesis. -/
theorem ghOnOverlap_mapV (path : String) (K : List (YKey × Yaml))
    (hshape : pushShapeOk (strTriggersOfMap K) = true) :
    ghOnOverlap path (Yaml.mapV K) =
      Except.ok (if claimOverlapBad (strTriggersOfMap K) then
        [mkError ghOnMessage (some path) none] else []) := by
  simp only [ghOnOverlap, pyIn, bindOk, anyKeyBridge]
  cases hp : (strTriggersOfMap K).any (fun t => t.1 == "push") with
  | false =>
    simp [hp, claimOverlapBad]
  | true =>
    simp only [hp, Bool.not_true, Bool.false_eq_true, if_false, bindOk]
    cases hq : (strTriggersOfMap K).any (fun t => t.1 == "pull_request") with
    | false =>
      simp [hq, claimOverlapBad, hp]
    | true =>
      simp only [hq, Bool.not_true, Bool.false_eq_true, if_false, bindOk]
      obtain ⟨t0, ht0⟩ := lookupBy_isSome _ _ hp
      have hKfind : (lookupBy (fun kv => yamlBEq (yamlOfKey kv.1) (Yaml.strV "push")) K).map
          (fun kv => kv.2) = some t0.2 := by
        rw [findValBridge, ht0]; rfl
      obtain ⟨kv0, hkv0, hkv02⟩ := Option.map_eq_some'.mp hKfind
      have hpv : claimPushVal (strTriggersOfMap K) = some t0.2 := by
        simp [claimPushVal, ht0]
      have hsh : (yFalsy t0.2 || isMapB t0.2) = true := by
        have h2 := hshape
        simp only [pushShapeOk, hpv] at h2
        exact h2
      simp only [pySubscript, hkv0, bindOk, hkv02]
      cases hf : yFalsy t0.2 with
      | true =>
        simp [hf, claimOverlapBad, hpv, hq, hp, bindOk]
      | false =>
        have hmap : isMapB t0.2 = true := by
          rw [hf, Bool.false_or] at hsh; exact hsh
        obtain ⟨pkvs, hpk⟩ : ∃ pkvs, t0.2 = Yaml.mapV pkvs := by
          cases hm : t0.2 <;> rw [hm] at hmap <;> simp [isMapB] at hmap
          case mapV pkvs => exact ⟨pkvs, rfl⟩
        rw [hpk] at hf ⊢
        simp only [hf, Bool.false_eq_true, if_false, pyIn, bindOk]
        simp only [claimOverlapBad, hpv, hpk, hp, hq, Bool.true_and]
        have hb : ((strTriggersOfMap pkvs).any fun t => t.1 == "branches") =
            (pkvs.any fun kv => kv.1 == YKey.strK "branches") :=
          (anyKeyBridge pkvs "branches").symm.trans (anyKeyBridge2 pkvs "branches")
        rw [hb, hf, Bool.false_or,
          show yHasStrKey (Yaml.mapV pkvs) "branches" =
            (pkvs.any fun kv => kv.1 == YKey.strK "branches") from rfl]

/-- String-keyed entries of a mapping built from names. -/
theorem strTriggersOfMap_mk (ns : List String) (f : String → String) (v : Yaml) :
    strTriggersOfMap (ns.map (fun x => (YKey.strK (f x), v))) = ns.map (fun x => (f x, v)) := by
  induction ns <;> simp [strTriggersOfMap, *]

/-- A successfully normalized list of event names strips to its name
list. -/
theorem listStrTriggers_strip (xs : List Yaml) : ∀ (ts : List (String × Yaml)),
    listStrTriggers xs = some ts →
    stripStrElems xs = Except.ok (ts.map (fun t => t.1)) ∧
      ts = (ts.map (fun t => t.1)).map (fun nm => (nm, Yaml.mapV [])) := by
  induction xs with
  | nil =>
    intro ts h
    simp only [listStrTriggers, Option.some.injEq] at h
    subst h
    exact ⟨rfl, rfl⟩
  | cons x xs ih =>
    intro ts h
    cases x with
    | strV s =>
      simp only [listStrTriggers] at h
      obtain ⟨r, hr, hts⟩ := Option.map_eq_some'.mp h
      obtain ⟨h1, h2⟩ := ih r hr
      subst hts
      constructor
      · simp [stripStrElems, h1, bindOk]
      · simp only [List.map_cons]
        rw [← h2]
    | nullV => simp [listStrTriggers] at h
    | boolV b => simp [listStrTriggers] at h
    | listV ys => simp [listStrTriggers] at h
    | mapV m => simp [listStrTriggers] at h

/-- Claim C5: for every workflow document, the trigger-overlap rule
reads the trigger configuration under the boolean key `true` (not the
string key `"on"`), normalizes a comma-separated string or a plain list
of event names into a mapping from event name to empty mapping, and
yields exactly one Error for the workflow iff the normalized triggers
contain both `push` and `pull_request` and the push configuration is
empty or lacks a `branches` key (scope: the push configuration, when
present, is a mapping or empty, as in workflow files). -/
theorem githubActionsOn_spec (path : String) (kvs : List (YKey × Yaml)) (ts : List (String × Yaml))
    (hnorm : claimNormTriggers (onValueOf kvs) = some ts)
    (hshape : pushShapeOk ts = true) :
    githubActionsOn_check [⟨path, Yaml.mapV kvs⟩] =
      Except.ok (if claimOverlapBad ts then [mkError ghOnMessage (some path) none] else []) := by
  have hstep : ∀ X, githubActionsOn_checkWf ⟨path, Yaml.mapV kvs⟩ = Except.ok X →
      githubActionsOn_check [⟨path, Yaml.mapV kvs⟩] = Except.ok X := by
    intro X hX
    simp [githubActionsOn_check, hX, bindOk]
  apply hstep
  simp only [githubActionsOn_checkWf, pyDictGet, bindOk]
  rw [show ((lookupBy (fun kv => kv.1 == YKey.boolK true) kvs).map (fun kv => kv.2)).getD Yaml.nullV
    = onValueOf kvs from rfl]
  cases hf : yFalsy (onValueOf kvs) with
  | true =>
    have hts : ts = [] := by
      simp only [claimNormTriggers, hf, if_true, Option.some.injEq] at hnorm
      exact hnorm.symm
    subst hts
    simp [hf, claimOverlapBad, claimPushVal, lookupBy]
  | false =>
    simp only [hf, Bool.false_eq_true, if_false]
    cases hv : onValueOf kvs with
    | nullV => rw [hv] at hf; simp [yFalsy] at hf
    | boolV b =>
      cases b with
      | false => rw [hv] at hf; simp [yFalsy] at hf
      | true =>
        rw [hv] at hnorm
        simp [claimNormTriggers, yFalsy] at hnorm
    | strV s =>
      rw [hv] at hnorm hf
      simp only [claimNormTriggers, hf, Bool.false_eq_true, if_false, Option.some.injEq] at hnorm
      show ghOnOverlap path (Yaml.mapV ((pySplitOn s ",").map
        (fun x => (YKey.strK (pyTrim x), Yaml.mapV [])))) = _
      have hK : strTriggersOfMap ((pySplitOn s ",").map
          (fun x => (YKey.strK (pyTrim x), Yaml.mapV []))) = ts := by
        rw [strTriggersOfMap_mk (pySplitOn s ",") pyTrim (Yaml.mapV [])]
        exact hnorm
      rw [ghOnOverlap_mapV path _ (by rw [hK]; exact hshape), hK]
    | listV xs =>
      rw [hv] at hnorm hf
      simp only [claimNormTriggers, hf, Bool.false_eq_true, if_false] at hnorm
      obtain ⟨h1, h2⟩ := listStrTriggers_strip xs ts hnorm
      show (do
        let names ← stripStrElems xs
        ghOnOverlap path (Yaml.mapV (names.map (fun nm => (YKey.strK nm, Yaml.mapV []))))) = _
      rw [h1, bindOk]
      have hK : strTriggersOfMap ((ts.map (fun t => t.1)).map
          (fun nm => (YKey.strK nm, Yaml.mapV []))) = ts := by
        rw [strTriggersOfMap_mk (ts.map (fun t => t.1)) (fun nm => nm) (Yaml.mapV [])]
        simp only [← h2]
      rw [ghOnOverlap_mapV path _ (by rw [hK]; exact hshape), hK]
    | mapV m =>
      rw [hv] at hnorm hf
      simp only [claimNormTriggers, hf, Bool.false_eq_true, if_false, Option.some.injEq] at hnorm
      show ghOnOverlap path (Yaml.mapV m) = _
      rw [ghOnOverlap_mapV path m (by rw [hnorm]; exact hshape), hnorm]

/-- Claim C8: `find_files` returns exactly the files under the root
matching the pattern recursively (`relMatch`, the `rglob` semantics),
excluding every path any of whose segments is in the fixed ignore list;
no path is returned twice (given distinct files); and an absent
directory or file set yields the empty list, never an error. -/
theorem find_files_characterization (fs : FS) (pattern : String)
    (hnd : (fs.files.map FSFile.rel).Nodup) :
    (∀ p, p ∈ find_files fs pattern ↔
      ∃ f ∈ fs.files, relMatch pattern f.rel = true ∧ p = fs.rootParts ++ f.rel ∧
        hasIgnoredSeg p = false) ∧
    (find_files fs pattern).Nodup ∧
    find_files { rootParts := fs.rootParts, files := [] } pattern = [] := by
  refine ⟨?_, ?_, rfl⟩
  · intro p
    simp only [find_files, List.mem_filter, List.mem_map, Bool.not_eq_true']
    constructor
    · rintro ⟨⟨f, ⟨hfm, hmm⟩, rfl⟩, hg⟩
      exact ⟨f, hfm, hmm, rfl, hg⟩
    · rintro ⟨f, hfm, hmm, rfl, hig⟩
      exact ⟨⟨f, ⟨hfm, hmm⟩, rfl⟩, hig⟩
  · have h2 : ((fs.files.filter (fun f => relMatch pattern f.rel)).map FSFile.rel).Nodup :=
      ((List.filter_sublist _).map FSFile.rel).nodup hnd
    have h3 : ((fs.files.filter (fun f => relMatch pattern f.rel)).map
        (fun f => fs.rootParts ++ f.rel)).Nodup := by
      have hmapmap : (fs.files.filter (fun f => relMatch pattern f.rel)).map
          (fun f => fs.rootParts ++ f.rel) =
          ((fs.files.filter (fun f => relMatch pattern f.rel)).map FSFile.rel).map
            (fun r => fs.rootParts ++ r) := by
        rw [List.map_map]
        rfl
      rw [hmapmap]
      exact h2.map (fun a b h => List.append_cancel_left h)
    exact h3.filter _

/-! ## Claim theorems -/

/-- Claim C1: for every project, the package entry point's main loop
raises a `TypeError` before completing: `main` instantiates every
registered rule and calls `rule.active()` with no arguments, but every
rule class of `rules/github.py` and `rules/php.py` declares
`active(self, project)` with a required `project` parameter; the first
registered rule already raises, so the run aborts with no output and no
exit code, whatever the project contains. -/
theorem mainRun_raises_typeError (fs : FS) :
    mainRun fs = ([], Except.error PyErr.typeError) := rfl

/-- Claim C2 counterexample: the single-entry matrix `php: ["8.2"]` does
not yield zero findings as the claim states; the source has no
multi-entry guard, so the missing stable version `8.3` yields an Error
and the missing unstable version `8.4` an Info. -/
theorem phpVersions_singleEntry_cex :
    githubActionsPHPVersions_check [⟨"ci.yml", mkMatrixWf "test" "php" ["8.2"]⟩] =
      Except.ok
        [mkError "PHP 8.3 is not tested" (some "ci.yml") (some "jobs.test.strategy.matrix.php"),
         mkInfo "PHP 8.4 is not tested" (some "ci.yml") (some "jobs.test.strategy.matrix.php")] ∧
    ([mkError "PHP 8.3 is not tested" (some "ci.yml") (some "jobs.test.strategy.matrix.php"),
      mkInfo "PHP 8.4 is not tested" (some "ci.yml") (some "jobs.test.strategy.matrix.php")]
        : List Finding) ≠ [] :=
  ⟨rfl, by decide⟩

/-- Claim C2 (amended): for a workflow job whose `strategy.matrix` has an
axis whose key starts with `php` and whose values are nonempty version
strings, whenever some listed version starts with `8` — regardless of how
many entries the axis has — every listed version matching a deprecated
prefix yields one Error, every stable version absent from the list yields
one Error, and every unstable version absent yields one Info; when no
version starts with `8`, there are no findings. -/
theorem githubActionsPHPVersions_amended (wfpath jobName axisKey : String)
    (versions : List String)
    (hkey : pyStartsWith axisKey "php" = true)
    (hne : ∀ v ∈ versions, v ≠ "") :
    githubActionsPHPVersions_check [⟨wfpath, mkMatrixWf jobName axisKey versions⟩] =
      Except.ok (if versions.any (fun v => pyStartsWith v "8")
        then phpCoverageFindings wfpath jobName axisKey versions
        else []) :=
  githubActionsPHPVersions_spec wfpath jobName axisKey versions hkey hne

/-- Witness for claim C2's amended theorem: the spec's example matrix
`php: ["7.4", "8.2", "8.3"]` yields exactly one Error (7.4 deprecated)
and one Info (8.4 untested). -/
theorem githubActionsPHPVersions_amended_witness :
    githubActionsPHPVersions_check [⟨"ci.yml", mkMatrixWf "test" "php" ["7.4", "8.2", "8.3"]⟩] =
      Except.ok
        [mkError "PHP 7.4 is deprecated" (some "ci.yml") (some "jobs.test.strategy.matrix.php"),
         mkInfo "PHP 8.4 is not tested" (some "ci.yml") (some "jobs.test.strategy.matrix.php")] := by
  have h := githubActionsPHPVersions_amended "ci.yml" "test" "php" ["7.4", "8.2", "8.3"]
    (by decide) (by decide)
  exact h

/-- Claim C3 counterexample: `PHPComposerLock.active` tests only the
lockfile, so it is active on a project that has `composer.lock` but no
`composer.json` (where the claim requires inactivity); `check` then
raises `FileNotFoundError` on the missing manifest. -/
theorem phpComposerLock_active_cex :
    phpComposerLock_active ⟨none, some 0⟩ = true ∧
    (⟨none, some 0⟩ : PhpFS).composerJson = none ∧
    phpComposerLock_check ⟨none, some 0⟩ = Except.error PyErr.fileNotFoundError :=
  ⟨rfl, rfl, rfl⟩

/-- Claim C3 (amended): the lockfile-freshness rule applies exactly when
the lockfile is present (the manifest's presence is not checked; if the
manifest is absent the check raises instead of reporting); when both
files are present, the check yields exactly one Error referencing the
lockfile path if the manifest's mtime is strictly greater than the
lockfile's, and zero findings otherwise. -/
theorem phpComposerLock_amended (p : PhpFS) (jm lm : Int)
    (hj : p.composerJson = some jm) (hl : p.composerLock = some lm) :
    phpComposerLock_active p = p.composerLock.isSome ∧
    phpComposerLock_check p = Except.ok (if jm > lm then
      [mkError "composer.lock is out of date" (some "composer.lock") none] else []) := by
  constructor
  · rfl
  · simp [phpComposerLock_check, statMtime, hj, hl, bindOk]

/-- Witness for claim C3's amended theorem at mtimes 5 > 3 (stale lock:
one Error) and 3 = 3 (fresh: zero findings). -/
theorem phpComposerLock_amended_witness :
    phpComposerLock_active ⟨some 5, some 3⟩ = true ∧
    phpComposerLock_check ⟨some 5, some 3⟩ =
      Except.ok [mkError "composer.lock is out of date" (some "composer.lock") none] ∧
    phpComposerLock_check ⟨some 3, some 3⟩ = Except.ok [] := by
  have h1 := phpComposerLock_amended ⟨some 5, some 3⟩ 5 3 rfl rfl
  have h2 := phpComposerLock_amended ⟨some 3, some 3⟩ 3 3 rfl rfl
  refine ⟨h1.1, ?_, ?_⟩
  · rw [h1.2]; norm_num
  · rw [h2.2]; norm_num

/-- Claim C4: the invariant "empty relevant set implies inactive and
skipped" is broken by the code: `GithubActionsOn` inherits the empty
pattern list, so its discovered relevant set is empty on every project,
yet on a project with a workflow file its declared `active(project)`
returns `True`; the runner's zero-argument call does not return `False`
either — it raises `TypeError`.  Evaluated at the failing input (a
project containing `.github/workflows/ci.yml`). -/
theorem emptyRelevantSet_violated :
    (initRule ⟨["proj"], [⟨[".github", "workflows", "ci.yml"], [], some (Yaml.mapV [])⟩]⟩
      RuleClass.GithubActionsOn).relevantPaths = [] ∧
    githubActionsOn_activeOverride
      ⟨["proj"], [⟨[".github", "workflows", "ci.yml"], [], some (Yaml.mapV [])⟩]⟩ = true ∧
    callActive0 (initRule ⟨["proj"], [⟨[".github", "workflows", "ci.yml"], [], some (Yaml.mapV [])⟩]⟩
      RuleClass.GithubActionsOn) = Except.error PyErr.typeError :=
  ⟨rfl, rfl, rfl⟩

/-- Witness for claim C5's theorem: the two spec examples — triggers
`{push: {}, pull_request: {}}` yield exactly one Error, and
`{push: {branches: [main]}, pull_request: {}}` yields zero findings. -/
theorem githubActionsOn_spec_witness :
    githubActionsOn_check [⟨"a.yml", Yaml.mapV [(YKey.boolK true,
      Yaml.mapV [(YKey.strK "push", Yaml.mapV []), (YKey.strK "pull_request", Yaml.mapV [])])]⟩] =
      Except.ok [mkError ghOnMessage (some "a.yml") none] ∧
    githubActionsOn_check [⟨"b.yml", Yaml.mapV [(YKey.boolK true,
      Yaml.mapV [(YKey.strK "push", Yaml.mapV [(YKey.strK "branches", Yaml.listV [Yaml.strV "main"])]),
        (YKey.strK "pull_request", Yaml.mapV [])])]⟩] = Except.ok [] := by
  have h1 := githubActionsOn_spec "a.yml"
    [(YKey.boolK true, Yaml.mapV [(YKey.strK "push", Yaml.mapV []),
      (YKey.strK "pull_request", Yaml.mapV [])])]
    [("push", Yaml.mapV []), ("pull_request", Yaml.mapV [])] rfl rfl
  have h2 := githubActionsOn_spec "b.yml"
    [(YKey.boolK true, Yaml.mapV [(YKey.strK "push",
      Yaml.mapV [(YKey.strK "branches", Yaml.listV [Yaml.strV "main"])]),
      (YKey.strK "pull_request", Yaml.mapV [])])]
    [("push", Yaml.mapV [(YKey.strK "branches", Yaml.listV [Yaml.strV "main"])]),
     ("pull_request", Yaml.mapV [])] rfl rfl
  exact ⟨h1, h2⟩

/-- Claim C6: the claim says `main` returns exit code 0 exactly when no
Error finding was produced; in fact `main` never returns at all — on the
failing input (an empty project, which produces no findings, hence no
Error) the run aborts with `TypeError` instead of returning 0. -/
theorem mainRun_noExitCode_bug :
    mainRun ⟨["proj"], []⟩ = ([], Except.error PyErr.typeError) := rfl

/-- Claim C7 counterexample: on the Dockerfile line `FROM x AS x` the
source yields zero findings, because the line's own stage name is
recorded before its untagged image reference `x` is checked; the claim
as stated (only stages from earlier lines excuse an untagged reference)
predicts one Error, as the claim-worded variant shows at the same
structured view (a view related to the raw line by `lineRel`). -/
theorem dockerStage_sameLine_cex :
    dockerCheckFile "Dockerfile" ["FROM x AS x\n"] = Except.ok [] ∧
    specDockerEarlierOnly "Dockerfile" [DLine.fromL "x" (some "x") none] [] =
      [mkError "Image should have a tag, is x ([])" (some "Dockerfile") none] ∧
    lineRel "FROM x AS x\n" (DLine.fromL "x" (some "x") none) :=
  ⟨rfl, rfl, rfl, rfl, rfl, ⟨"x\n", rfl, rfl⟩, rfl⟩

/-- Claim C7 (amended): for every Dockerfile whose lines parse cleanly
into structured views (`lineRel`: the `FROM ` prefix test, the token
holding the image reference, the `AS` substring test agreeing with the
presence of a stage clause, the stage-name token, and the `name:tag`
split all produce the view's components — this excludes the lines on
which the source raises, see C10), the rule yields exactly the findings
of the structured policy: one Error per untagged image reference that
does not equal a stage name recorded on the same or an earlier `FROM`
line, and one Error per tagged reference to a known base image whose tag
starts with none of the accepted prefixes. -/
theorem dockerBaseImages_spec (file : String) (lines : List String) (views : List DLine)
    (h : List.Forall₂ lineRel lines views) :
    dockerCheckFile file lines = Except.ok (specDockerFindings file views []) :=
  dockerCheckLines_refines file h []

/-- Witness for claim C7's amended theorem: a three-line Dockerfile with
a named build stage, an internal stage reference, and a badly tagged
python image; exactly one Error results. -/
theorem dockerBaseImages_spec_witness :
    dockerCheckFile "Dockerfile"
      ["FROM python:3.12 AS builder\n", "FROM builder\n", "FROM python:3.9\n"] =
      Except.ok [mkError "python should be [\x273.12\x27], is 3.9" (some "Dockerfile") none] := by
  have h := dockerBaseImages_spec "Dockerfile"
    ["FROM python:3.12 AS builder\n", "FROM builder\n", "FROM python:3.9\n"]
    [DLine.fromL "python:3.12" (some "builder") (some ("python", "3.12")),
     DLine.fromL "builder" none none,
     DLine.fromL "python:3.9" none (some ("python", "3.9"))]
    (by
      refine List.Forall₂.cons ?_ (List.Forall₂.cons ?_ (List.Forall₂.cons ?_ List.Forall₂.nil))
      · exact ⟨rfl, rfl, rfl, ⟨"builder\n", rfl, rfl⟩, ⟨rfl, rfl⟩⟩
      · exact ⟨rfl, rfl, rfl, trivial, rfl⟩
      · exact ⟨rfl, rfl, rfl, trivial, ⟨rfl, rfl⟩⟩)
  exact h

/-- Witness for claim C8's theorem: on a project with one matching file
and one matching file inside an ignored `vendor` directory, the result
is duplicate-free, and the empty project yields the empty list without
error. -/
theorem find_files_characterization_witness :
    (find_files ⟨["r"], [⟨["a", "Dockerfile"], [], none⟩, ⟨["vendor", "Dockerfile"], [], none⟩]⟩
      "Dockerfile").Nodup ∧
    find_files ⟨["r"], []⟩ "Dockerfile" = [] := by
  have h := find_files_characterization
    ⟨["r"], [⟨["a", "Dockerfile"], [], none⟩, ⟨["vendor", "Dockerfile"], [], none⟩]⟩
    "Dockerfile" (by decide)
  exact ⟨h.2.1, h.2.2⟩

/-- Claim C9: the embedded runner is a deterministic function of the
project's file contents and metadata — two runs over the unmodified
project produce identical printed output and identical outcome. -/
theorem mainRun_deterministic (fs1 fs2 : FS) (h : fs1 = fs2) :
    mainRun fs1 = mainRun fs2 := by rw [h]

/-- Witness for claim C9's theorem: two runs on a concrete project
agree. -/
theorem mainRun_deterministic_witness :
    mainRun ⟨["p"], [⟨["Dockerfile"], ["FROM python:3.9\n"], none⟩]⟩ =
      mainRun ⟨["p"], [⟨["Dockerfile"], ["FROM python:3.9\n"], none⟩]⟩ :=
  mainRun_deterministic _ _ rfl

/-- Claim C10: there is a Dockerfile input on which
`DockerBaseImages.check_file` raises instead of returning findings: the
line `FROM ASDF` starts with `FROM `, contains `AS` as a substring (the
source tests `"AS" in line`, not a standalone token), and has fewer than
four space-separated tokens, so the stage-name extraction
`line.split(" ")[3]` raises `IndexError`. -/
theorem dockerCheckFile_indexError :
    dockerCheckFile "Dockerfile" ["FROM ASDF\n"] = Except.error PyErr.indexError ∧
    strContains "FROM ASDF\n" "AS" = true ∧
    (pySplitOn "FROM ASDF\n" " ").length < 4 :=
  ⟨rfl, rfl, by decide⟩

